import Mathlib

/-!
Verification development for the repohooks configuration-validation and
result-classification core (rh/config.py and rh/results.py).

The Python sources are shallowly embedded: the config store is an ordered
association list of sections, each an ordered association list of key/value
pairs; fallible operations return `Except ConfigError`; subprocess results
are records with an optional return code and optional captured streams.
-/

set_option autoImplicit false

namespace Repohooks

/-- Python truthiness of an optional string: `None` and the empty string are
falsy, every other string is truthy. -/
def pyTruthy : Option String → Bool
  | none => false
  | some s => s ≠ ""

/-- A completed subprocess, as consumed by `rh.results.HookCommandResult`:
`returncode` is `None` or an integer, `stdout` and `stderr` are the captured
streams (`None` when not captured). -/
structure CompletedProcess where
  returncode : Option Int
  stdout : Option String
  stderr : Option String
deriving DecidableEq, Repr

/-- `rh.results.HookResult` together with the extra `result` field added by
`HookCommandResult`: hook name, project, commit, derived error text, files,
optional fixup command, and the underlying subprocess result. -/
structure HookCommandResult where
  hook : String
  project : String
  commit : String
  error : Option String
  files : List String
  fixupCmd : Option (List String)
  result : CompletedProcess
deriving DecidableEq, Repr

/-- `HookCommandResult.__init__`: the error text is
`result.stderr if result.stderr else result.stdout`. -/
def HookCommandResult.make (hook project commit : String) (result : CompletedProcess)
    (files : List String) (fixupCmd : Option (List String)) : HookCommandResult :=
  { hook := hook, project := project, commit := commit,
    error := if pyTruthy result.stderr then result.stderr else result.stdout,
    files := files, fixupCmd := fixupCmd, result := result }

/-- `HookCommandResult.__bool__`: `self.result.returncode not in (None, 0)`. -/
def HookCommandResult.toBool (r : HookCommandResult) : Bool :=
  ¬ (r.result.returncode = none ∨ r.result.returncode = some 0)

/-- `HookCommandResult.is_warning`: `self.result.returncode == 77`. -/
def HookCommandResult.isWarning (r : HookCommandResult) : Bool :=
  r.result.returncode = some 77

/-- Errors raised by the embedded config layer: `TypeError` from the arity
check, the parser absence errors `NoSectionError` / `NoOptionError`,
`ValueError` from shell tokenization, and `rh.config.ValidationError`. -/
inductive ConfigError where
  | typeErr (msg : String)
  | noSection (sec : String)
  | noOption (sec opt : String)
  | valueError (msg : String)
  | validation (msg : String)
deriving DecidableEq, Repr

/-- Whether an error is a `ValidationError`. -/
def ConfigError.isValidation : ConfigError → Bool
  | .validation _ => true
  | _ => false

/-- Whether an error is a `TypeError`. -/
def ConfigError.isTypeErr : ConfigError → Bool
  | .typeErr _ => true
  | _ => false

/-- The parsed config store underlying `rh.config.RawConfigParser`: an ordered
list of sections, each an ordered list of key/value pairs, keys unique within
a section. -/
structure RawConfigParser where
  sections : List (String × List (String × String))
deriving DecidableEq, Repr

namespace RawConfigParser

/-- The list of section names, in order (`RawConfigParser.sections()`). -/
def sectionNames (c : RawConfigParser) : List String :=
  c.sections.map Prod.fst

/-- `RawConfigParser.has_section`. -/
def hasSection (c : RawConfigParser) (sec : String) : Bool :=
  (c.sections.lookup sec).isSome

/-- The stored value at a section/key pair, if both are present. -/
def lookupValue (c : RawConfigParser) (sec opt : String) : Option String :=
  (c.sections.lookup sec).bind fun kvs => kvs.lookup opt

/-- Base-class `ConfigParser.RawConfigParser.options`: raises
`NoSectionError` when the section is absent. -/
def baseOptions (c : RawConfigParser) (sec : String) : Except ConfigError (List String) :=
  match c.sections.lookup sec with
  | none => .error (.noSection sec)
  | some kvs => .ok (kvs.map Prod.fst)

/-- Base-class `ConfigParser.RawConfigParser.items`: raises `NoSectionError`
when the section is absent. -/
def baseItems (c : RawConfigParser) (sec : String) :
    Except ConfigError (List (String × String)) :=
  match c.sections.lookup sec with
  | none => .error (.noSection sec)
  | some kvs => .ok kvs

/-- Base-class `ConfigParser.RawConfigParser.get`: raises `NoSectionError` or
`NoOptionError` on absence. -/
def baseGet (c : RawConfigParser) (sec opt : String) : Except ConfigError String :=
  match c.sections.lookup sec with
  | none => .error (.noSection sec)
  | some kvs =>
      match kvs.lookup opt with
      | none => .error (.noOption sec opt)
      | some v => .ok v

/-- `RawConfigParser._check_args`: the variadic default list must hold 0 or
`cnt_max - cnt_min` entries, else `TypeError`. -/
def checkArgs (name : String) (cntMin cntMax cnt : Nat) : Except ConfigError Nat :=
  if cnt = 0 ∨ cnt = cntMax - cntMin then .ok cnt
  else .error (.typeErr (name ++ "() takes " ++ toString cntMin ++ " or " ++
                          toString cntMax ++ " arguments (got " ++ toString cnt ++ ")"))

/-- The wrapper `RawConfigParser.options`: returns the keys of `sec`, or the
single default when the section is absent and a default was supplied. -/
def options (c : RawConfigParser) (sec : String) (args : List (List String)) :
    Except ConfigError (List String) := do
  let _ ← checkArgs "options" 2 3 args.length
  match c.baseOptions sec with
  | .ok v => .ok v
  | .error e =>
      match args with
      | [d] => .ok d
      | _ => .error e

/-- The wrapper `RawConfigParser.get`: returns the stored value, or the single
default when the section or key is absent and a default was supplied. -/
def get (c : RawConfigParser) (sec opt : String) (args : List String) :
    Except ConfigError String := do
  let _ ← checkArgs "get" 3 4 args.length
  match c.baseGet sec opt with
  | .ok v => .ok v
  | .error e =>
      match args with
      | [d] => .ok d
      | _ => .error e

/-- The wrapper `RawConfigParser.items`: returns the key/value pairs of `sec`,
or the single default when the section is absent and a default was supplied. -/
def items (c : RawConfigParser) (sec : String) (args : List (List (String × String))) :
    Except ConfigError (List (String × String)) := do
  let _ ← checkArgs "items" 2 3 args.length
  match c.baseItems sec with
  | .ok v => .ok v
  | .error e =>
      match args with
      | [d] => .ok d
      | _ => .error e

/-- Replace the value at a key of an ordered key/value list, keeping its
position, or append the pair when the key is new. -/
def setKV : List (String × String) → String → String → List (String × String)
  | [], k, v => [(k, v)]
  | (k0, v0) :: rest, k, v =>
      if k0 = k then (k, v) :: rest else (k0, v0) :: setKV rest k v

/-- Store a pair into the ordered section list: update the named section in
place when present, else append a new section at the end. -/
def setSec : List (String × List (String × String)) → String → String → String →
    List (String × List (String × String))
  | [], sec, k, v => [(sec, [(k, v)])]
  | (a, kvs) :: rest, sec, k, v =>
      if a = sec then (a, setKV kvs k v) :: rest
      else (a, kvs) :: setSec rest sec k v

/-- Modelled from the spec: storing a key/value pair into the store (the
KeyedStore write path used by the round-trip property; the underlying parser
populates sections this way when reading a file). Creates the section when
absent, otherwise updates it in place. -/
def set (c : RawConfigParser) (sec k v : String) : RawConfigParser :=
  ⟨setSec c.sections sec k v⟩

end RawConfigParser

/-- The single-quote character. -/
def squote : Char := '\''

/-- The double-quote character. -/
def dquote : Char := '"'

/-- The backslash character. -/
def bslash : Char := '\\'

/-- Whitespace characters recognized by the shell lexer. -/
def isShellWhitespace (c : Char) : Bool :=
  c = ' ' ∨ c = '\t' ∨ c = '\r' ∨ c = '\n'

/-- States of the POSIX shell lexer used by `shlex.split`: between tokens,
inside a bare word, inside single or double quotes, and after a backslash
outside quotes or inside double quotes. -/
inductive LexState where
  | white
  | word
  | inSingle
  | inDouble
  | escOuter
  | escDouble
deriving DecidableEq, Repr

/-- Model of Python `shlex.split` (POSIX mode, whitespace splitting, no
comments), as used by `rh.config` for hook command lines and options.
`acc` holds the emitted tokens, `tok` the token being built, `quoted`
whether the current token saw a quote (an empty quoted token is emitted). -/
def shlexAux : List String → String → Bool → LexState → List Char →
    Except String (List String)
  | acc, _, _, .white, [] => .ok acc
  | acc, tok, quoted, .white, ch :: rest =>
      if isShellWhitespace ch then shlexAux acc tok quoted .white rest
      else if ch = squote then shlexAux acc tok true .inSingle rest
      else if ch = dquote then shlexAux acc tok true .inDouble rest
      else if ch = bslash then shlexAux acc tok quoted .escOuter rest
      else shlexAux acc (tok.push ch) quoted .word rest
  | acc, tok, quoted, .word, [] =>
      if tok ≠ "" ∨ quoted then .ok (acc ++ [tok]) else .ok acc
  | acc, tok, quoted, .word, ch :: rest =>
      if isShellWhitespace ch then
        if tok ≠ "" ∨ quoted then shlexAux (acc ++ [tok]) "" false .white rest
        else shlexAux acc tok quoted .white rest
      else if ch = squote then shlexAux acc tok true .inSingle rest
      else if ch = dquote then shlexAux acc tok true .inDouble rest
      else if ch = bslash then shlexAux acc tok quoted .escOuter rest
      else shlexAux acc (tok.push ch) quoted .word rest
  | _, _, _, .inSingle, [] => .error "No closing quotation"
  | acc, tok, quoted, .inSingle, ch :: rest =>
      if ch = squote then shlexAux acc tok quoted .word rest
      else shlexAux acc (tok.push ch) quoted .inSingle rest
  | _, _, _, .inDouble, [] => .error "No closing quotation"
  | acc, tok, quoted, .inDouble, ch :: rest =>
      if ch = dquote then shlexAux acc tok quoted .word rest
      else if ch = bslash then shlexAux acc tok quoted .escDouble rest
      else shlexAux acc (tok.push ch) quoted .inDouble rest
  | _, _, _, .escOuter, [] => .error "No escaped character"
  | acc, tok, quoted, .escOuter, ch :: rest => shlexAux acc (tok.push ch) quoted .word rest
  | _, _, _, .escDouble, [] => .error "No escaped character"
  | acc, tok, quoted, .escDouble, ch :: rest =>
      if ch = bslash ∨ ch = dquote then
        shlexAux acc (tok.push ch) quoted .inDouble rest
      else shlexAux acc ((tok.push bslash).push ch) quoted .inDouble rest

/-- `shlex.split` on a whole string: tokenize from the between-tokens state
with an empty token. -/
def shlexSplit (s : String) : Except String (List String) :=
  shlexAux [] "" false .white s.data

/-- Lowercase a string character by character (ASCII case folding on the
underlying character list). -/
def strLower (s : String) : String :=
  ⟨s.data.map Char.toLower⟩

/-- Modelled from the spec: `rh.shell.boolean_shell_value` (rh/shell.py is
not under src/). Recognizes the shell-boolean strings true/false, yes/no,
1/0 case-insensitively; any other value falls back to the default supplied
by the caller (the defaulting contract of the spec). -/
def booleanShellValue (v : String) (default : Bool) : Bool :=
  let s := strLower v
  if s = "yes" ∨ s = "true" ∨ s = "1" then true
  else if s = "no" ∨ s = "false" ∨ s = "0" then false
  else default

/-- A deferred hook invocation yielded by `callable_hooks`. Modelled from the
spec: the callables `rh.hooks.check_custom` and the members of
`rh.hooks.BUILTIN_HOOKS` (rh/hooks.py is not under src/) are opaque, so a
closure is represented by which implementation it binds and the tokenized
options bound into it. -/
inductive HookClosure where
  | custom (options : List String)
  | builtin (name : String) (options : List String)
deriving DecidableEq, Repr

/-- `PreSubmitConfig.CUSTOM_HOOKS_SECTION`. -/
def customHooksSection : String := "Hook Scripts"

/-- `PreSubmitConfig.BUILTIN_HOOKS_SECTION`. -/
def builtinHooksSection : String := "Builtin Hooks"

/-- `PreSubmitConfig.BUILTIN_HOOKS_OPTIONS_SECTION`. -/
def builtinHooksOptionsSection : String := "Builtin Hooks Options"

/-- The three valid section names of `PreSubmitConfig._validate`. -/
def validSections : List String :=
  [customHooksSection, builtinHooksSection, builtinHooksOptionsSection]

/-- `rh.config.PreSubmitConfig`: wraps the parsed config store. -/
structure PreSubmitConfig where
  config : RawConfigParser
deriving DecidableEq, Repr

namespace PreSubmitConfig

/-- `PreSubmitConfig.custom_hooks`: the keys of the Hook Scripts section,
with default `[]`. -/
def customHooks (c : PreSubmitConfig) : Except ConfigError (List String) :=
  c.config.options customHooksSection [[]]

/-- `PreSubmitConfig.custom_hook`: the shell-tokenized command of a custom
hook, looked up with default empty string. -/
def customHook (c : PreSubmitConfig) (hook : String) : Except ConfigError (List String) := do
  let v ← c.config.get customHooksSection hook [""]
  match shlexSplit v with
  | .ok toks => .ok toks
  | .error m => .error (.valueError m)

/-- `PreSubmitConfig.builtin_hooks`: the keys of the Builtin Hooks section
whose value is a truthy shell boolean, with default `()`. -/
def builtinHooks (c : PreSubmitConfig) : Except ConfigError (List String) := do
  let its ← c.config.items builtinHooksSection [[]]
  .ok ((its.filter fun kv => booleanShellValue kv.2 false).map Prod.fst)

/-- `PreSubmitConfig.builtin_hook_option`: the shell-tokenized options of a
builtin hook, looked up with default empty string. -/
def builtinHookOption (c : PreSubmitConfig) (hook : String) :
    Except ConfigError (List String) := do
  let v ← c.config.get builtinHooksOptionsSection hook [""]
  match shlexSplit v with
  | .ok toks => .ok toks
  | .error m => .error (.valueError m)

/-- `PreSubmitConfig.callable_hooks`: one closure per custom hook bound to
its tokenized command, then one closure per enabled builtin hook bound to
its name and tokenized options. -/
def callableHooks (c : PreSubmitConfig) : Except ConfigError (List HookClosure) := do
  let customs ← c.customHooks
  let cs ← customs.mapM fun h => do
    let opts ← c.customHook h
    pure (HookClosure.custom opts)
  let builtins ← c.builtinHooks
  let bs ← builtins.mapM fun h => do
    let opts ← c.builtinHookOption h
    pure (HookClosure.builtin h opts)
  .ok (cs ++ bs)

/-- The blank-custom-hook loop of `_validate`: a custom hook whose stored
command is falsy (empty) is a `ValidationError`. -/
def checkBlank (c : PreSubmitConfig) : List String → Except ConfigError Unit
  | [] => .ok ()
  | h :: rest => do
      let v ← c.config.get customHooksSection h []
      if v = "" then
        .error (.validation ("custom hook " ++ h ++ " cannot be blank"))
      else c.checkBlank rest

/-- The shell-validity loop of `_validate` over custom hooks: a `ValueError`
from tokenization becomes a `ValidationError`. -/
def checkShellCustom (c : PreSubmitConfig) : List String → Except ConfigError Unit
  | [] => .ok ()
  | h :: rest =>
      match c.customHook h with
      | .ok _ => c.checkShellCustom rest
      | .error (.valueError m) =>
          .error (.validation ("hook " ++ h ++ " command line is invalid: " ++ m))
      | .error e => .error e

/-- The shell-validity loop of `_validate` over enabled builtin hooks: a
`ValueError` from tokenizing the options becomes a `ValidationError`. -/
def checkShellOptions (c : PreSubmitConfig) : List String → Except ConfigError Unit
  | [] => .ok ()
  | h :: rest =>
      match c.builtinHookOption h with
      | .ok _ => c.checkShellOptions rest
      | .error (.valueError m) =>
          .error (.validation ("hook options " ++ h ++ " are invalid: " ++ m))
      | .error e => .error e

/-- The reject-unknown-sections block of `_validate`. -/
def stageSections (c : PreSubmitConfig) : Except ConfigError Unit :=
  if (c.config.sectionNames.filter fun s => !validSections.contains s) ≠ [] then
    .error (.validation ("unknown sections: " ++
      toString (c.config.sectionNames.filter fun s => !validSections.contains s)))
  else .ok ()

/-- The reject-unknown-builtin-hooks block of `_validate`, including the
orphaned-options branch taken when the Builtin Hooks section is absent. -/
def stageUnknownBuiltin (c : PreSubmitConfig) (registry : List String) :
    Except ConfigError Unit :=
  if c.config.hasSection builtinHooksSection then do
    let hooks ← c.config.options builtinHooksSection []
    if (hooks.filter fun h => !registry.contains h) ≠ [] then
      .error (.validation ("unknown builtin hooks: " ++
        toString (hooks.filter fun h => !registry.contains h)))
    else .ok ()
  else if c.config.hasSection builtinHooksOptionsSection then
    .error (.validation
      "Builtin hook options specified, but missing builtin hook settings")
  else .ok ()

/-- The reject-unknown-builtin-hook-options block of `_validate`. -/
def stageUnknownOptions (c : PreSubmitConfig) (registry : List String) :
    Except ConfigError Unit :=
  if c.config.hasSection builtinHooksOptionsSection then do
    let hooks ← c.config.options builtinHooksOptionsSection []
    if (hooks.filter fun h => !registry.contains h) ≠ [] then
      .error (.validation ("unknown builtin hook options: " ++
        toString (hooks.filter fun h => !registry.contains h)))
    else .ok ()
  else .ok ()

/-- `PreSubmitConfig._validate`, with the builtin-hook registry passed in
(the spec treats `rh.hooks.BUILTIN_HOOKS` as externally supplied read-only
data; only its key set is consulted). The blocks run in source order: unknown
sections, blank custom hooks, unknown builtin hooks (with the orphaned
options branch), unknown builtin hook options, custom-hook shell validity,
enabled-builtin-hook option shell validity. -/
def validate (c : PreSubmitConfig) (registry : List String) : Except ConfigError Unit := do
  c.stageSections
  let customs ← c.customHooks
  c.checkBlank customs
  c.stageUnknownBuiltin registry
  c.stageUnknownOptions registry
  let customs2 ← c.customHooks
  c.checkShellCustom customs2
  let enabled ← c.builtinHooks
  c.checkShellOptions enabled

/-- `PreSubmitConfig.__init__`: the declaration file is given by its parsed
section structure when it exists (`some`), and `none` when the path does not
exist, in which case an empty store is used. Construction validates and
returns the config, or the first error raised. -/
def init (file : Option RawConfigParser) (registry : List String) :
    Except ConfigError PreSubmitConfig := do
  let config := match file with
    | none => RawConfigParser.mk []
    | some cfg => cfg
  let c : PreSubmitConfig := ⟨config⟩
  c.validate registry
  .ok c

end PreSubmitConfig

/-- The config file of the C2 counterexample: the registered hook `goodhook`
is disabled, and its options value has an unclosed double quote. -/
def c2File : RawConfigParser :=
  ⟨[(builtinHooksSection, [("goodhook", "false")]),
    (builtinHooksOptionsSection, [("goodhook", "\"unclosed")])]⟩

/-- A small well-formed config used as a concrete witness: two custom hooks
and three builtin hooks of which two are enabled. -/
def sampleFile : RawConfigParser :=
  ⟨[(customHooksSection, [("a", "echo hi"), ("b", "ls -l")]),
    (builtinHooksSection, [("foo", "true"), ("bar", "false"), ("baz", "yes")]),
    (builtinHooksOptionsSection, [("foo", "--opt x")])]⟩

section Lemmas

/-- Bind in `Except` yields an error exactly when the first step errors or
the continuation errors on the first step's value. -/
theorem bind_error_iff {ε α β : Type} (x : Except ε α) (f : α → Except ε β) (e : ε) :
    (x >>= f) = .error e ↔ x = .error e ∨ ∃ a, x = .ok a ∧ f a = .error e := by
  cases x <;> simp [Bind.bind, Except.bind]

/-- Bind in `Except` succeeds exactly when both steps succeed. -/
theorem bind_ok_iff {ε α β : Type} (x : Except ε α) (f : α → Except ε β) (b : β) :
    (x >>= f) = .ok b ↔ ∃ a, x = .ok a ∧ f a = .ok b := by
  cases x <;> simp [Bind.bind, Except.bind]

/-- Lookup skips a left list in which the key is absent. -/
theorem lookup_append_right {β : Type} (l₁ l₂ : List (String × β)) (a : String)
    (h : l₁.lookup a = none) : (l₁ ++ l₂).lookup a = l₂.lookup a := by
  induction l₁ with
  | nil => simp
  | cons hd tl ih =>
      obtain ⟨k, b⟩ := hd
      by_cases hk : a = k
      · simp [List.lookup, hk] at h
      · simp only [List.cons_append, List.lookup,
          show (a == k) = false by simpa using hk]
        simp only [List.lookup, show (a == k) = false by simpa using hk] at h
        exact ih h

/-- A key among the keys of an association list has a stored value. -/
theorem lookup_of_mem_keys {β : Type} (l : List (String × β)) (a : String)
    (h : a ∈ l.map Prod.fst) : ∃ b, l.lookup a = some b := by
  induction l with
  | nil => simp at h
  | cons hd tl ih =>
      obtain ⟨k, b⟩ := hd
      by_cases hk : a = k
      · exact ⟨b, by simp [List.lookup, hk]⟩
      · simp only [List.map_cons, List.mem_cons] at h
        rcases h with h | h
        · exact absurd h hk
        · obtain ⟨b', hb⟩ := ih h
          exact ⟨b', by simp [List.lookup, show (a == k) = false by simpa using hk, hb]⟩

/-- `setKV` stores the pair: looking the key up afterwards returns the new
value. -/
theorem lookup_setKV (kvs : List (String × String)) (k v : String) :
    (RawConfigParser.setKV kvs k v).lookup k = some v := by
  induction kvs with
  | nil => simp [RawConfigParser.setKV, List.lookup]
  | cons hd tl ih =>
      obtain ⟨k0, v0⟩ := hd
      by_cases hk : k0 = k
      · simp [RawConfigParser.setKV, hk, List.lookup]
      · simp only [RawConfigParser.setKV, if_neg hk, List.lookup,
          show (k == k0) = false by simpa using fun h => hk h.symm]
        exact ih

/-- Round trip on the raw store: after `set`, the stored value is found. -/
theorem lookupValue_set (c : RawConfigParser) (sec k v : String) :
    (c.set sec k v).lookupValue sec k = some v := by
  unfold RawConfigParser.set RawConfigParser.lookupValue
  induction c.sections with
  | nil => simp [RawConfigParser.setSec, List.lookup, RawConfigParser.setKV]
  | cons hd tl ih =>
      obtain ⟨a, kvs⟩ := hd
      by_cases ha : a = sec
      · subst ha
        simp [RawConfigParser.setSec, List.lookup, lookup_setKV]
      · simp only [RawConfigParser.setSec, if_neg ha, List.lookup,
          show (sec == a) = false by simpa using fun hh => ha hh.symm]
        exact ih

/-- `baseGet` returns the stored value when the section/key pair is present. -/
theorem baseGet_ok_of_lookup (c : RawConfigParser) (sec opt v : String)
    (h : c.lookupValue sec opt = some v) : c.baseGet sec opt = .ok v := by
  unfold RawConfigParser.baseGet
  unfold RawConfigParser.lookupValue at h
  cases hs : c.sections.lookup sec with
  | none => simp [hs] at h
  | some kvs =>
      simp only [hs, Option.some_bind] at h
      simp [hs, h]

/-- `baseGet` raises an absence error when the section/key pair is absent. -/
theorem baseGet_error_of_lookup (c : RawConfigParser) (sec opt : String)
    (h : c.lookupValue sec opt = none) : ∃ e, c.baseGet sec opt = .error e := by
  unfold RawConfigParser.baseGet
  unfold RawConfigParser.lookupValue at h
  cases hs : c.sections.lookup sec with
  | none => exact ⟨.noSection sec, rfl⟩
  | some kvs =>
      simp only [hs, Option.some_bind] at h
      exact ⟨.noOption sec opt, by simp [hs, h]⟩

/-- The defaulted `get` never fails: it returns the stored value or the
default. -/
theorem get_default_ok (c : RawConfigParser) (sec opt d : String) :
    ∃ v, c.get sec opt [d] = .ok v := by
  unfold RawConfigParser.get
  cases hb : c.baseGet sec opt with
  | ok v => exact ⟨v, by simp [RawConfigParser.checkArgs, hb, Bind.bind, Except.bind]⟩
  | error e => exact ⟨d, by simp [RawConfigParser.checkArgs, hb, Bind.bind, Except.bind]⟩

/-- `options` without a default returns the key list when the section is
present. -/
theorem options_nodefault_ok (c : RawConfigParser) (sec : String)
    (kvs : List (String × String)) (h : c.sections.lookup sec = some kvs) :
    c.options sec [] = .ok (kvs.map Prod.fst) := by
  simp [RawConfigParser.options, RawConfigParser.checkArgs, RawConfigParser.baseOptions,
    h, Bind.bind, Except.bind]

/-- `custom_hooks` always succeeds, and every name it returns has a stored
value in the Hook Scripts section. -/
theorem customHooks_ok (c : PreSubmitConfig) :
    ∃ l, c.customHooks = .ok l ∧
      ∀ h ∈ l, ∃ v, c.config.lookupValue customHooksSection h = some v := by
  cases hs : c.config.sections.lookup customHooksSection with
  | none =>
      refine ⟨[], ?_, by simp⟩
      simp [PreSubmitConfig.customHooks, RawConfigParser.options, RawConfigParser.checkArgs,
        RawConfigParser.baseOptions, hs, Bind.bind, Except.bind]
  | some kvs =>
      refine ⟨kvs.map Prod.fst, ?_, ?_⟩
      · simp [PreSubmitConfig.customHooks, RawConfigParser.options, RawConfigParser.checkArgs,
          RawConfigParser.baseOptions, hs, Bind.bind, Except.bind]
      · intro h hm
        obtain ⟨v, hv⟩ := lookup_of_mem_keys kvs h hm
        exact ⟨v, by simp [RawConfigParser.lookupValue, hs, hv]⟩

/-- `builtin_hooks` always succeeds: the Builtin Hooks section defaults to
empty, and enabled filtering is total. -/
theorem builtinHooks_ok (c : PreSubmitConfig) : ∃ l, c.builtinHooks = .ok l := by
  cases hs : c.config.sections.lookup builtinHooksSection with
  | none =>
      exact ⟨[], by simp [PreSubmitConfig.builtinHooks, RawConfigParser.items,
        RawConfigParser.checkArgs, RawConfigParser.baseItems, hs, Bind.bind, Except.bind]⟩
  | some kvs =>
      exact ⟨(kvs.filter fun kv => booleanShellValue kv.2 false).map Prod.fst,
        by simp [PreSubmitConfig.builtinHooks, RawConfigParser.items,
          RawConfigParser.checkArgs, RawConfigParser.baseItems, hs, Bind.bind, Except.bind]⟩

/-- `custom_hook` either tokenizes to an argument vector or raises the
tokenizer's `ValueError`; it never raises an absence error (default ""). -/
theorem customHook_classified (c : PreSubmitConfig) (h : String) :
    (∃ t, c.customHook h = .ok t) ∨ (∃ m, c.customHook h = .error (.valueError m)) := by
  obtain ⟨v, hv⟩ := get_default_ok c.config customHooksSection h ""
  unfold PreSubmitConfig.customHook
  cases hsp : shlexSplit v with
  | ok toks => exact .inl ⟨toks, by simp [hv, hsp, Bind.bind, Except.bind]⟩
  | error m => exact .inr ⟨m, by simp [hv, hsp, Bind.bind, Except.bind]⟩

/-- `builtin_hook_option` either tokenizes to an argument vector or raises
the tokenizer's `ValueError`; it never raises an absence error (default ""). -/
theorem builtinHookOption_classified (c : PreSubmitConfig) (h : String) :
    (∃ t, c.builtinHookOption h = .ok t) ∨
      (∃ m, c.builtinHookOption h = .error (.valueError m)) := by
  obtain ⟨v, hv⟩ := get_default_ok c.config builtinHooksOptionsSection h ""
  unfold PreSubmitConfig.builtinHookOption
  cases hsp : shlexSplit v with
  | ok toks => exact .inl ⟨toks, by simp [hv, hsp, Bind.bind, Except.bind]⟩
  | error m => exact .inr ⟨m, by simp [hv, hsp, Bind.bind, Except.bind]⟩

/-- The blank-hook loop either passes or raises a `ValidationError`, provided
every hook name has a stored value. -/
theorem checkBlank_classified (c : PreSubmitConfig) (hooks : List String)
    (hmem : ∀ h ∈ hooks, ∃ v, c.config.lookupValue customHooksSection h = some v) :
    c.checkBlank hooks = .ok () ∨ ∃ m, c.checkBlank hooks = .error (.validation m) := by
  induction hooks with
  | nil => exact .inl rfl
  | cons h rest ih =>
      obtain ⟨v, hv⟩ := hmem h (by simp)
      have hb := baseGet_ok_of_lookup _ _ _ _ hv
      have hget : c.config.get customHooksSection h [] = .ok v := by
        simp [RawConfigParser.get, RawConfigParser.checkArgs, hb, Bind.bind, Except.bind]
      by_cases hveq : v = ""
      · exact .inr ⟨"custom hook " ++ h ++ " cannot be blank",
          by simp [PreSubmitConfig.checkBlank, hget, hveq, Bind.bind, Except.bind]⟩
      · have : c.checkBlank (h :: rest) = c.checkBlank rest := by
          simp [PreSubmitConfig.checkBlank, hget, hveq, Bind.bind, Except.bind]
        rw [this]
        exact ih fun hk hmk => hmem hk (by simp [hmk])

/-- The custom-hook shell check either passes or raises a `ValidationError`. -/
theorem checkShellCustom_classified (c : PreSubmitConfig) (hooks : List String) :
    c.checkShellCustom hooks = .ok () ∨
      ∃ m, c.checkShellCustom hooks = .error (.validation m) := by
  induction hooks with
  | nil => exact .inl rfl
  | cons h rest ih =>
      rcases customHook_classified c h with ⟨t, ht⟩ | ⟨m, hm⟩
      · have : c.checkShellCustom (h :: rest) = c.checkShellCustom rest := by
          simp [PreSubmitConfig.checkShellCustom, ht]
        rw [this]; exact ih
      · exact .inr ⟨"hook " ++ h ++ " command line is invalid: " ++ m,
          by simp [PreSubmitConfig.checkShellCustom, hm]⟩

/-- When the custom-hook shell check passes, every listed custom hook
tokenizes. -/
theorem checkShellCustom_ok_forall (c : PreSubmitConfig) (hooks : List String)
    (h : c.checkShellCustom hooks = .ok ()) :
    ∀ hk ∈ hooks, ∃ t, c.customHook hk = .ok t := by
  induction hooks with
  | nil => simp
  | cons hd rest ih =>
      intro hk hmem
      rcases customHook_classified c hd with ⟨t, ht⟩ | ⟨m, hm⟩
      · have hrest : c.checkShellCustom rest = .ok () := by
          have : c.checkShellCustom (hd :: rest) = c.checkShellCustom rest := by
            simp [PreSubmitConfig.checkShellCustom, ht]
          rw [this] at h; exact h
        rcases List.mem_cons.mp hmem with rfl | hmem'
        · exact ⟨t, ht⟩
        · exact ih hrest hk hmem'
      · rw [show c.checkShellCustom (hd :: rest) =
            .error (.validation ("hook " ++ hd ++ " command line is invalid: " ++ m)) by
            simp [PreSubmitConfig.checkShellCustom, hm]] at h
        cases h

/-- The builtin-options shell check either passes or raises a
`ValidationError`. -/
theorem checkShellOptions_classified (c : PreSubmitConfig) (hooks : List String) :
    c.checkShellOptions hooks = .ok () ∨
      ∃ m, c.checkShellOptions hooks = .error (.validation m) := by
  induction hooks with
  | nil => exact .inl rfl
  | cons h rest ih =>
      rcases builtinHookOption_classified c h with ⟨t, ht⟩ | ⟨m, hm⟩
      · have : c.checkShellOptions (h :: rest) = c.checkShellOptions rest := by
          simp [PreSubmitConfig.checkShellOptions, ht]
        rw [this]; exact ih
      · exact .inr ⟨"hook options " ++ h ++ " are invalid: " ++ m,
          by simp [PreSubmitConfig.checkShellOptions, hm]⟩

/-- When the builtin-options shell check passes, every listed hook's options
tokenize. -/
theorem checkShellOptions_ok_forall (c : PreSubmitConfig) (hooks : List String)
    (h : c.checkShellOptions hooks = .ok ()) :
    ∀ hk ∈ hooks, ∃ t, c.builtinHookOption hk = .ok t := by
  induction hooks with
  | nil => simp
  | cons hd rest ih =>
      intro hk hmem
      rcases builtinHookOption_classified c hd with ⟨t, ht⟩ | ⟨m, hm⟩
      · have hrest : c.checkShellOptions rest = .ok () := by
          have : c.checkShellOptions (hd :: rest) = c.checkShellOptions rest := by
            simp [PreSubmitConfig.checkShellOptions, ht]
          rw [this] at h; exact h
        rcases List.mem_cons.mp hmem with rfl | hmem'
        · exact ⟨t, ht⟩
        · exact ih hrest hk hmem'
      · rw [show c.checkShellOptions (hd :: rest) =
            .error (.validation ("hook options " ++ hd ++ " are invalid: " ++ m)) by
            simp [PreSubmitConfig.checkShellOptions, hm]] at h
        cases h

/-- The unknown-sections block either passes or raises a `ValidationError`. -/
theorem stageSections_classified (c : PreSubmitConfig) :
    c.stageSections = .ok () ∨ ∃ m, c.stageSections = .error (.validation m) := by
  unfold PreSubmitConfig.stageSections
  split
  · exact .inr ⟨_, rfl⟩
  · exact .inl rfl

/-- A section name outside the fixed three makes the unknown-sections block
raise a `ValidationError`. -/
theorem stageSections_error_of_bad (c : PreSubmitConfig) (sec : String)
    (hmem : sec ∈ c.config.sectionNames) (hbad : ¬ sec ∈ validSections) :
    ∃ m, c.stageSections = .error (.validation m) := by
  have hne : (c.config.sectionNames.filter fun s => !validSections.contains s) ≠ [] := by
    have : sec ∈ c.config.sectionNames.filter fun s => !validSections.contains s :=
      List.mem_filter.mpr ⟨hmem, by simpa using hbad⟩
    exact List.ne_nil_of_mem this
  unfold PreSubmitConfig.stageSections
  exact ⟨_, if_pos hne⟩

/-- The unknown-builtin-hooks block either passes or raises a
`ValidationError`. -/
theorem stageUnknownBuiltin_classified (c : PreSubmitConfig) (registry : List String) :
    c.stageUnknownBuiltin registry = .ok () ∨
      ∃ m, c.stageUnknownBuiltin registry = .error (.validation m) := by
  unfold PreSubmitConfig.stageUnknownBuiltin
  by_cases hB : c.config.hasSection builtinHooksSection = true
  · rw [if_pos hB]
    obtain ⟨kvs, hk⟩ : ∃ kvs, c.config.sections.lookup builtinHooksSection = some kvs := by
      unfold RawConfigParser.hasSection at hB
      exact Option.isSome_iff_exists.mp hB
    simp only [options_nodefault_ok _ _ _ hk, Bind.bind, Except.bind]
    split
    · exact .inr ⟨_, rfl⟩
    · exact .inl rfl
  · rw [if_neg hB]
    split
    · exact .inr ⟨_, rfl⟩
    · exact .inl rfl

/-- The unknown-builtin-hooks block cannot pass when the options section is
present without the Builtin Hooks section. -/
theorem stageUnknownBuiltin_orphan (c : PreSubmitConfig) (registry : List String)
    (hB : c.config.hasSection builtinHooksSection = false)
    (hO : c.config.hasSection builtinHooksOptionsSection = true) :
    c.stageUnknownBuiltin registry =
      .error (.validation
        "Builtin hook options specified, but missing builtin hook settings") := by
  unfold PreSubmitConfig.stageUnknownBuiltin
  rw [if_neg (by simp [hB]), if_pos hO]

/-- The unknown-builtin-hook-options block either passes or raises a
`ValidationError`. -/
theorem stageUnknownOptions_classified (c : PreSubmitConfig) (registry : List String) :
    c.stageUnknownOptions registry = .ok () ∨
      ∃ m, c.stageUnknownOptions registry = .error (.validation m) := by
  unfold PreSubmitConfig.stageUnknownOptions
  by_cases hO : c.config.hasSection builtinHooksOptionsSection = true
  · rw [if_pos hO]
    obtain ⟨kvs, hk⟩ : ∃ kvs,
        c.config.sections.lookup builtinHooksOptionsSection = some kvs := by
      unfold RawConfigParser.hasSection at hO
      exact Option.isSome_iff_exists.mp hO
    simp only [options_nodefault_ok _ _ _ hk, Bind.bind, Except.bind]
    split
    · exact .inr ⟨_, rfl⟩
    · exact .inl rfl
  · rw [if_neg hO]
    exact .inl rfl

/-- When the unknown-builtin-hook-options block passes, every key of the
options section is a registered builtin-hook name. -/
theorem stageUnknownOptions_ok_keys (c : PreSubmitConfig) (registry : List String)
    (kvs : List (String × String))
    (hk : c.config.sections.lookup builtinHooksOptionsSection = some kvs)
    (h : c.stageUnknownOptions registry = .ok ()) :
    ((kvs.map Prod.fst).filter fun h2 => !registry.contains h2) = [] := by
  unfold PreSubmitConfig.stageUnknownOptions at h
  have hO : c.config.hasSection builtinHooksOptionsSection = true := by
    unfold RawConfigParser.hasSection
    simp [hk]
  rw [if_pos hO] at h
  simp only [options_nodefault_ok _ _ _ hk, Bind.bind, Except.bind] at h
  by_cases hbad : ((kvs.map Prod.fst).filter fun h2 => !registry.contains h2) ≠ []
  · rw [if_pos hbad] at h
    cases h
  · simpa using hbad

/-- `_validate` raises only `ValidationError`: any error it returns carries a
validation message. -/
theorem validate_error_is_validation (c : PreSubmitConfig) (registry : List String)
    (e : ConfigError) (h : c.validate registry = .error e) : ∃ m, e = .validation m := by
  obtain ⟨cs, hcs, hmem⟩ := customHooks_ok c
  obtain ⟨bs, hbs⟩ := builtinHooks_ok c
  unfold PreSubmitConfig.validate at h
  rcases (bind_error_iff _ _ _).mp h with h1 | ⟨u1, hu1, h⟩
  · rcases stageSections_classified c with hok | ⟨m, herr⟩
    · rw [hok] at h1; cases h1
    · rw [h1] at herr
      injection herr with hh
      exact ⟨m, hh⟩
  · rcases (bind_error_iff _ _ _).mp h with h2 | ⟨customs, hcust, h⟩
    · rw [hcs] at h2; cases h2
    · rw [hcs] at hcust
      injection hcust with hcust
      subst hcust
      rcases (bind_error_iff _ _ _).mp h with h3 | ⟨u2, hu2, h⟩
      · rcases checkBlank_classified c cs hmem with hok | ⟨m, herr⟩
        · rw [hok] at h3; cases h3
        · rw [h3] at herr
          injection herr with hh
          exact ⟨m, hh⟩
      · rcases (bind_error_iff _ _ _).mp h with h4 | ⟨u3, hu3, h⟩
        · rcases stageUnknownBuiltin_classified c registry with hok | ⟨m, herr⟩
          · rw [hok] at h4; cases h4
          · rw [h4] at herr
            injection herr with hh
            exact ⟨m, hh⟩
        · rcases (bind_error_iff _ _ _).mp h with h5 | ⟨u4, hu4, h⟩
          · rcases stageUnknownOptions_classified c registry with hok | ⟨m, herr⟩
            · rw [hok] at h5; cases h5
            · rw [h5] at herr
              injection herr with hh
              exact ⟨m, hh⟩
          · rcases (bind_error_iff _ _ _).mp h with h6 | ⟨customs2, hcust2, h⟩
            · rw [hcs] at h6; cases h6
            · rw [hcs] at hcust2
              injection hcust2 with hcust2
              subst hcust2
              rcases (bind_error_iff _ _ _).mp h with h7 | ⟨u5, hu5, h⟩
              · rcases checkShellCustom_classified c cs with hok | ⟨m, herr⟩
                · rw [hok] at h7; cases h7
                · rw [h7] at herr
                  injection herr with hh
                  exact ⟨m, hh⟩
              · rcases (bind_error_iff _ _ _).mp h with h8 | ⟨enabled, hen, h⟩
                · rw [hbs] at h8; cases h8
                · rw [hbs] at hen
                  injection hen with hen
                  subst hen
                  rcases checkShellOptions_classified c bs with hok | ⟨m, herr⟩
                  · rw [hok] at h; cases h
                  · rw [h] at herr
                    injection herr with hh
                    exact ⟨m, hh⟩

/-- Decomposition of a passing `_validate` run into its passing blocks. -/
theorem validate_ok_parts (c : PreSubmitConfig) (registry : List String)
    (h : c.validate registry = .ok ()) :
    ∃ cs bs, c.customHooks = .ok cs ∧ c.builtinHooks = .ok bs ∧
      c.checkBlank cs = .ok () ∧
      c.checkShellCustom cs = .ok () ∧ c.checkShellOptions bs = .ok () ∧
      c.stageUnknownBuiltin registry = .ok () ∧
      c.stageUnknownOptions registry = .ok () := by
  unfold PreSubmitConfig.validate at h
  rcases (bind_ok_iff _ _ _).mp h with ⟨u1, h1, h⟩
  rcases (bind_ok_iff _ _ _).mp h with ⟨cs, hcs, h⟩
  rcases (bind_ok_iff _ _ _).mp h with ⟨u2, h2, h⟩
  rcases (bind_ok_iff _ _ _).mp h with ⟨u3, h3, h⟩
  rcases (bind_ok_iff _ _ _).mp h with ⟨u4, h4, h⟩
  rcases (bind_ok_iff _ _ _).mp h with ⟨cs2, hcs2, h⟩
  rcases (bind_ok_iff _ _ _).mp h with ⟨u5, h5, h⟩
  rcases (bind_ok_iff _ _ _).mp h with ⟨bs, hbs, h⟩
  cases u2; cases u3; cases u4; cases u5
  have hcseq : cs2 = cs := by
    rw [hcs] at hcs2
    injection hcs2 with hh
    exact hh.symm
  rw [hcseq] at h5
  exact ⟨cs, bs, hcs, hbs, h2, h5, h, h3, h4⟩

/-- `__init__` on an existing file either propagates the first validation
error or returns the config wrapping the parsed file. -/
theorem init_cases (file : RawConfigParser) (registry : List String) :
    (∃ e, PreSubmitConfig.validate ⟨file⟩ registry = .error e ∧
       PreSubmitConfig.init (some file) registry = .error e) ∨
    (PreSubmitConfig.validate ⟨file⟩ registry = .ok () ∧
       PreSubmitConfig.init (some file) registry = .ok ⟨file⟩) := by
  cases hv : PreSubmitConfig.validate ⟨file⟩ registry with
  | error e =>
      exact .inl ⟨e, rfl, by simp [PreSubmitConfig.init, hv, Bind.bind, Except.bind]⟩
  | ok u =>
      cases u
      exact .inr ⟨rfl, by simp [PreSubmitConfig.init, hv, Bind.bind, Except.bind]⟩

/-- `baseGet` never raises a `TypeError`. -/
theorem baseGet_not_typeErr (c : RawConfigParser) (sec opt m : String) :
    c.baseGet sec opt ≠ .error (.typeErr m) := by
  unfold RawConfigParser.baseGet
  cases c.sections.lookup sec with
  | none => simp
  | some kvs => cases hx : kvs.lookup opt <;> simp [hx]

/-- `baseOptions` never raises a `TypeError`. -/
theorem baseOptions_not_typeErr (c : RawConfigParser) (sec m : String) :
    c.baseOptions sec ≠ .error (.typeErr m) := by
  unfold RawConfigParser.baseOptions
  cases c.sections.lookup sec <;> simp

/-- `baseItems` never raises a `TypeError`. -/
theorem baseItems_not_typeErr (c : RawConfigParser) (sec m : String) :
    c.baseItems sec ≠ .error (.typeErr m) := by
  unfold RawConfigParser.baseItems
  cases c.sections.lookup sec <;> simp

/-- Mapping a fallible extractor then a pure wrapper over a list succeeds
when the extractor succeeds pointwise, and the output lines up with the
input index by index. -/
theorem mapM_bind_pure_ok {α β γ : Type} (F : α → Except ConfigError β) (G : α → β → γ)
    (l : List α) (hall : ∀ a ∈ l, ∃ b, F a = .ok b) :
    ∃ res, (l.mapM fun a => do
        let b ← F a
        pure (G a b)) = .ok res ∧
      res.length = l.length ∧
      ∀ (i : Nat) (dA : α) (dG : γ), i < l.length →
        ∃ b, F (l.getD i dA) = .ok b ∧ res.getD i dG = G (l.getD i dA) b := by
  induction l with
  | nil =>
      refine ⟨[], by simp [List.mapM_nil]; rfl, rfl, ?_⟩
      intro i dA dG hi
      simp at hi
  | cons a l ih =>
      obtain ⟨b, hb⟩ := hall a (by simp)
      obtain ⟨res, hres, hlen, hidx⟩ := ih fun x hx => hall x (by simp [hx])
      refine ⟨G a b :: res, ?_, by simp [hlen], ?_⟩
      · simp only [List.mapM_cons, hres, hb]
        simp [Bind.bind, Except.bind, pure, Except.pure]
      · intro i dA dG hi
        cases i with
        | zero => exact ⟨b, by simpa using hb, by simp⟩
        | succ n =>
            simp only [List.getD_cons_succ]
            exact hidx n dA dG (by simpa using hi)

end Lemmas

section Claims

/-- C1 counterexample: a hook subprocess exiting with status 77 produces a
truthy `HookCommandResult` (with `is_warning()` true), refuting the claim
that an exit status of 77 yields a falsy result. -/
theorem exit77_truthy_counterexample :
    (HookCommandResult.make "h" "p" "c" ⟨some 77, none, none⟩ [] none).toBool = true ∧
    (HookCommandResult.make "h" "p" "c" ⟨some 77, none, none⟩ [] none).isWarning = true := by
  exact ⟨rfl, by decide⟩

/-- C1 (amended): exit status 0 yields a falsy result with `is_warning()`
false; exit status 77 yields a truthy result with `is_warning()` true; any
other non-zero exit status yields a truthy result with `is_warning()`
false. -/
theorem exit_status_classification (r : HookCommandResult) :
    (r.result.returncode = some 0 → r.toBool = false ∧ r.isWarning = false) ∧
    (r.result.returncode = some 77 → r.toBool = true ∧ r.isWarning = true) ∧
    (∀ n : Int, r.result.returncode = some n → n ≠ 0 → n ≠ 77 →
      r.toBool = true ∧ r.isWarning = false) := by
  refine ⟨fun h => ?_, fun h => ?_, fun n h hn0 hn77 => ?_⟩
  · constructor <;> simp [HookCommandResult.toBool, HookCommandResult.isWarning, h]
  · constructor <;> simp [HookCommandResult.toBool, HookCommandResult.isWarning, h]
  · constructor <;>
      simp [HookCommandResult.toBool, HookCommandResult.isWarning, h, hn0, hn77]

/-- C1 witness: the classification evaluated at exit statuses 0, 77 and 1. -/
theorem exit_status_classification_witness :
    ((HookCommandResult.make "h" "p" "c" ⟨some 0, none, none⟩ [] none).toBool = false ∧
      (HookCommandResult.make "h" "p" "c" ⟨some 0, none, none⟩ [] none).isWarning = false) ∧
    ((HookCommandResult.make "h" "p" "c" ⟨some 77, none, some "w"⟩ [] none).toBool = true ∧
      (HookCommandResult.make "h" "p" "c" ⟨some 77, none, some "w"⟩ [] none).isWarning = true) ∧
    ((HookCommandResult.make "h" "p" "c" ⟨some 1, none, none⟩ [] none).toBool = true ∧
      (HookCommandResult.make "h" "p" "c" ⟨some 1, none, none⟩ [] none).isWarning = false) :=
  ⟨(exit_status_classification _).1 rfl,
   (exit_status_classification _).2.1 rfl,
   (exit_status_classification _).2.2 1 rfl (by decide) (by decide)⟩

/-- C10: a result whose subprocess returncode is None is classified falsy
(success), exactly as returncode 0 is. -/
theorem returncode_none_falsy (h p cm : String) (so se : Option String)
    (files : List String) (f : Option (List String)) :
    (HookCommandResult.make h p cm ⟨none, so, se⟩ files f).toBool = false ∧
    (HookCommandResult.make h p cm ⟨some 0, so, se⟩ files f).toBool = false := by
  constructor <;> simp [HookCommandResult.make, HookCommandResult.toBool]

/-- C9: the result's error text is the captured stderr when stderr is
present and non-empty, and the captured stdout when stderr is empty or
absent. -/
theorem error_prefers_stderr (h p cm : String) (rc : Option Int) (so se : Option String)
    (files : List String) (f : Option (List String)) :
    (pyTruthy se = true →
      (HookCommandResult.make h p cm ⟨rc, so, se⟩ files f).error = se) ∧
    (pyTruthy se = false →
      (HookCommandResult.make h p cm ⟨rc, so, se⟩ files f).error = so) := by
  constructor <;> intro hse <;> simp [HookCommandResult.make, hse]

/-- C9 witness: stderr wins when both streams are captured; stdout is used
when stderr is absent. -/
theorem error_prefers_stderr_witness :
    pyTruthy (some "boom") = true ∧
    (HookCommandResult.make "h" "p" "c" ⟨some 1, some "out", some "boom"⟩ [] none).error
      = some "boom" ∧
    pyTruthy none = false ∧
    (HookCommandResult.make "h" "p" "c" ⟨some 1, some "out", none⟩ [] none).error
      = some "out" :=
  ⟨by decide,
   (error_prefers_stderr "h" "p" "c" (some 1) (some "out") (some "boom") [] none).1 (by decide),
   by decide,
   (error_prefers_stderr "h" "p" "c" (some 1) (some "out") none [] none).2 (by decide)⟩

/-- C3: defaulted lookup returns the stored value when the section/key pair
is present (with or without a default), returns the default exactly when the
section or key is absent, and a stored pair round-trips through `get` with
no default. -/
theorem get_roundtrip (c : RawConfigParser) (sec opt v d : String) :
    (c.lookupValue sec opt = some v →
      c.get sec opt [] = .ok v ∧ c.get sec opt [d] = .ok v) ∧
    (c.lookupValue sec opt = none →
      (∃ e, c.get sec opt [] = .error e) ∧ c.get sec opt [d] = .ok d) ∧
    (c.set sec opt v).get sec opt [] = .ok v := by
  refine ⟨fun h => ?_, fun h => ?_, ?_⟩
  · have hb := baseGet_ok_of_lookup c sec opt v h
    constructor <;>
      simp [RawConfigParser.get, RawConfigParser.checkArgs, hb, Bind.bind, Except.bind]
  · obtain ⟨e, he⟩ := baseGet_error_of_lookup c sec opt h
    constructor
    · exact ⟨e, by
        simp [RawConfigParser.get, RawConfigParser.checkArgs, he, Bind.bind, Except.bind]⟩
    · simp [RawConfigParser.get, RawConfigParser.checkArgs, he, Bind.bind, Except.bind]
  · have hb := baseGet_ok_of_lookup _ sec opt v (lookupValue_set c sec opt v)
    simp [RawConfigParser.get, RawConfigParser.checkArgs, hb, Bind.bind, Except.bind]

/-- C3 witness: the defaulting contract evaluated on a one-entry store and
on the empty store. -/
theorem get_roundtrip_witness :
    (⟨[("s", [("k", "val")])]⟩ : RawConfigParser).lookupValue "s" "k" = some "val" ∧
    (⟨[("s", [("k", "val")])]⟩ : RawConfigParser).get "s" "k" [] = .ok "val" ∧
    (⟨[]⟩ : RawConfigParser).lookupValue "s" "k" = none ∧
    (⟨[]⟩ : RawConfigParser).get "s" "k" ["d"] = .ok "d" ∧
    ((⟨[]⟩ : RawConfigParser).set "s" "k" "val").get "s" "k" [] = .ok "val" :=
  ⟨rfl,
   ((get_roundtrip ⟨[("s", [("k", "val")])]⟩ "s" "k" "val" "d").1 rfl).1,
   rfl,
   ((get_roundtrip ⟨[]⟩ "s" "k" "val" "d").2.1 rfl).2,
   (get_roundtrip ⟨[]⟩ "s" "k" "val" "d").2.2⟩

/-- C4: `get`, `options` and `items` accept exactly zero or one default
argument; any other count raises a `TypeError` naming the operation, and an
accepted count never does, independent of the store contents. -/
theorem default_arity (c : RawConfigParser) (sec opt : String)
    (gargs : List String) (oargs : List (List String))
    (iargs : List (List (String × String))) :
    (2 ≤ gargs.length →
      c.get sec opt gargs = .error (.typeErr ("get() takes 3 or 4 arguments (got " ++
        toString gargs.length ++ ")"))) ∧
    (gargs.length ≤ 1 → ∀ m, c.get sec opt gargs ≠ .error (.typeErr m)) ∧
    (2 ≤ oargs.length →
      c.options sec oargs = .error (.typeErr ("options() takes 2 or 3 arguments (got " ++
        toString oargs.length ++ ")"))) ∧
    (oargs.length ≤ 1 → ∀ m, c.options sec oargs ≠ .error (.typeErr m)) ∧
    (2 ≤ iargs.length →
      c.items sec iargs = .error (.typeErr ("items() takes 2 or 3 arguments (got " ++
        toString iargs.length ++ ")"))) ∧
    (iargs.length ≤ 1 → ∀ m, c.items sec iargs ≠ .error (.typeErr m)) := by
  refine ⟨fun hg => ?_, fun hg m hEq => ?_, fun ho => ?_, fun ho m hEq => ?_,
    fun hi => ?_, fun hi m hEq => ?_⟩
  · have hcnt : ¬ (gargs.length = 0 ∨ gargs.length = 4 - 3) := by omega
    unfold RawConfigParser.get RawConfigParser.checkArgs
    rw [if_neg hcnt]
    rfl
  · match gargs, hg with
    | [], _ =>
        cases hb : c.baseGet sec opt with
        | ok v =>
            simp [RawConfigParser.get, RawConfigParser.checkArgs, hb,
              Bind.bind, Except.bind] at hEq
        | error e =>
            simp [RawConfigParser.get, RawConfigParser.checkArgs, hb,
              Bind.bind, Except.bind] at hEq
            exact baseGet_not_typeErr c sec opt m (by rw [hb, hEq])
    | [d], _ =>
        obtain ⟨v, hv⟩ := get_default_ok c sec opt d
        rw [hv] at hEq
        cases hEq
  · have hcnt : ¬ (oargs.length = 0 ∨ oargs.length = 3 - 2) := by omega
    unfold RawConfigParser.options RawConfigParser.checkArgs
    rw [if_neg hcnt]
    rfl
  · match oargs, ho with
    | [], _ =>
        cases hb : c.baseOptions sec with
        | ok v =>
            simp [RawConfigParser.options, RawConfigParser.checkArgs, hb,
              Bind.bind, Except.bind] at hEq
        | error e =>
            simp [RawConfigParser.options, RawConfigParser.checkArgs, hb,
              Bind.bind, Except.bind] at hEq
            exact baseOptions_not_typeErr c sec m (by rw [hb, hEq])
    | [d], _ =>
        cases hb : c.baseOptions sec with
        | ok v =>
            simp [RawConfigParser.options, RawConfigParser.checkArgs, hb,
              Bind.bind, Except.bind] at hEq
        | error e =>
            simp [RawConfigParser.options, RawConfigParser.checkArgs, hb,
              Bind.bind, Except.bind] at hEq
  · have hcnt : ¬ (iargs.length = 0 ∨ iargs.length = 3 - 2) := by omega
    unfold RawConfigParser.items RawConfigParser.checkArgs
    rw [if_neg hcnt]
    rfl
  · match iargs, hi with
    | [], _ =>
        cases hb : c.baseItems sec with
        | ok v =>
            simp [RawConfigParser.items, RawConfigParser.checkArgs, hb,
              Bind.bind, Except.bind] at hEq
        | error e =>
            simp [RawConfigParser.items, RawConfigParser.checkArgs, hb,
              Bind.bind, Except.bind] at hEq
            exact baseItems_not_typeErr c sec m (by rw [hb, hEq])
    | [d], _ =>
        cases hb : c.baseItems sec with
        | ok v =>
            simp [RawConfigParser.items, RawConfigParser.checkArgs, hb,
              Bind.bind, Except.bind] at hEq
        | error e =>
            simp [RawConfigParser.items, RawConfigParser.checkArgs, hb,
              Bind.bind, Except.bind] at hEq

/-- C4 witness: two defaults are rejected with a `TypeError`, one default is
accepted, for each of the three operations, on the empty store. -/
theorem default_arity_witness :
    2 ≤ (["a", "b"] : List String).length ∧
    (⟨[]⟩ : RawConfigParser).get "s" "k" ["a", "b"] =
      .error (.typeErr ("get() takes 3 or 4 arguments (got " ++ toString 2 ++ ")")) ∧
    (["a"] : List String).length ≤ 1 ∧
    (⟨[]⟩ : RawConfigParser).get "s" "k" ["a"] ≠ .error (.typeErr "boom") ∧
    (⟨[]⟩ : RawConfigParser).options "s" [[], []] =
      .error (.typeErr ("options() takes 2 or 3 arguments (got " ++ toString 2 ++ ")")) ∧
    (⟨[]⟩ : RawConfigParser).options "s" [[]] ≠ .error (.typeErr "boom") ∧
    (⟨[]⟩ : RawConfigParser).items "s" [[], []] =
      .error (.typeErr ("items() takes 2 or 3 arguments (got " ++ toString 2 ++ ")")) ∧
    (⟨[]⟩ : RawConfigParser).items "s" [[]] ≠ .error (.typeErr "boom") :=
  ⟨by decide,
   (default_arity ⟨[]⟩ "s" "k" ["a", "b"] [[], []] [[], []]).1 (by decide),
   by decide,
   (default_arity ⟨[]⟩ "s" "k" ["a"] [[]] [[]]).2.1 (by decide) "boom",
   (default_arity ⟨[]⟩ "s" "k" ["a", "b"] [[], []] [[], []]).2.2.1 (by decide),
   (default_arity ⟨[]⟩ "s" "k" ["a"] [[]] [[]]).2.2.2.1 (by decide) "boom",
   (default_arity ⟨[]⟩ "s" "k" ["a", "b"] [[], []] [[], []]).2.2.2.2.1 (by decide),
   (default_arity ⟨[]⟩ "s" "k" ["a"] [[]] [[]]).2.2.2.2.2 (by decide) "boom"⟩

/-- C6: a missing declaration file constructs successfully with empty custom
hooks, empty builtin hooks, and no callable hooks. -/
theorem missing_file_empty (registry : List String) :
    PreSubmitConfig.init none registry = .ok ⟨⟨[]⟩⟩ ∧
    PreSubmitConfig.customHooks ⟨⟨[]⟩⟩ = .ok [] ∧
    PreSubmitConfig.builtinHooks ⟨⟨[]⟩⟩ = .ok [] ∧
    PreSubmitConfig.callableHooks ⟨⟨[]⟩⟩ = .ok [] := by
  exact ⟨rfl, rfl, rfl, rfl⟩

/-- C7: a declaration file containing a section outside the fixed three is
rejected with a `ValidationError` at construction. -/
theorem unknown_section_rejected (file : RawConfigParser) (registry : List String)
    (sec : String) (hmem : sec ∈ file.sectionNames) (hbad : sec ∉ validSections) :
    ∃ m, PreSubmitConfig.init (some file) registry = .error (.validation m) := by
  rcases init_cases file registry with ⟨e, hv, hi⟩ | ⟨hv, hi⟩
  · obtain ⟨m, hm⟩ := validate_error_is_validation ⟨file⟩ registry e hv
    exact ⟨m, by rw [hi, hm]⟩
  · exfalso
    obtain ⟨m, hm⟩ := stageSections_error_of_bad ⟨file⟩ sec hmem hbad
    unfold PreSubmitConfig.validate at hv
    rcases (bind_ok_iff _ _ _).mp hv with ⟨u, hu, _⟩
    rw [hm] at hu
    cases hu

/-- C7 witness: a file with section `Bad Section` is rejected. -/
theorem unknown_section_rejected_witness :
    "Bad Section" ∈ (⟨[("Bad Section", [])]⟩ : RawConfigParser).sectionNames ∧
    "Bad Section" ∉ validSections ∧
    ∃ m, PreSubmitConfig.init (some ⟨[("Bad Section", [])]⟩) [] =
      .error (.validation m) :=
  ⟨by decide, by decide,
   unknown_section_rejected ⟨[("Bad Section", [])]⟩ [] "Bad Section"
     (by decide) (by decide)⟩

/-- C8: a declaration file with a BuiltinHooksOptions section but no
BuiltinHooks section is rejected with a `ValidationError` at construction. -/
theorem orphan_options_rejected (file : RawConfigParser) (registry : List String)
    (hO : file.hasSection builtinHooksOptionsSection = true)
    (hB : file.hasSection builtinHooksSection = false) :
    ∃ m, PreSubmitConfig.init (some file) registry = .error (.validation m) := by
  rcases init_cases file registry with ⟨e, hv, hi⟩ | ⟨hv, hi⟩
  · obtain ⟨m, hm⟩ := validate_error_is_validation ⟨file⟩ registry e hv
    exact ⟨m, by rw [hi, hm]⟩
  · exfalso
    obtain ⟨cs, bs, _, _, _, _, _, hstage, _⟩ := validate_ok_parts ⟨file⟩ registry hv
    have horphan := stageUnknownBuiltin_orphan ⟨file⟩ registry hB hO
    rw [horphan] at hstage
    cases hstage

/-- C8 witness: an options-only file is rejected even when the named hook is
registered. -/
theorem orphan_options_rejected_witness :
    (⟨[(builtinHooksOptionsSection, [("goodhook", "-x")])]⟩ :
        RawConfigParser).hasSection builtinHooksOptionsSection = true ∧
    (⟨[(builtinHooksOptionsSection, [("goodhook", "-x")])]⟩ :
        RawConfigParser).hasSection builtinHooksSection = false ∧
    ∃ m, PreSubmitConfig.init
      (some ⟨[(builtinHooksOptionsSection, [("goodhook", "-x")])]⟩) ["goodhook"] =
        .error (.validation m) :=
  ⟨by decide, by decide,
   orphan_options_rejected ⟨[(builtinHooksOptionsSection, [("goodhook", "-x")])]⟩
     ["goodhook"] (by decide) (by decide)⟩

/-- C2 counterexample: construction accepts `c2File` even though the options
value of the (registered but disabled) hook fails shell tokenization, so
load-time validation does not tokenize option values of disabled hooks. -/
theorem options_tokenize_counterexample :
    PreSubmitConfig.init (some c2File) ["goodhook"] = .ok ⟨c2File⟩ ∧
    shlexSplit "\"unclosed" = .error "No closing quotation" := by
  constructor
  · rfl
  · rfl

/-- C2 (amended): in every accepted declaration file, every key of the
BuiltinHooksOptions section names a registered builtin hook, and the option
values of the hooks that are enabled tokenize as valid shell syntax; option
values of disabled hooks are not checked. -/
theorem options_keys_registered_and_enabled_tokenize
    (file : RawConfigParser) (registry : List String) (c : PreSubmitConfig)
    (h : PreSubmitConfig.init (some file) registry = .ok c)
    (kvs : List (String × String))
    (hk : file.sections.lookup builtinHooksOptionsSection = some kvs) :
    (∀ kv ∈ kvs, registry.contains kv.1 = true) ∧
    (∀ bs, c.builtinHooks = .ok bs → ∀ hk2 ∈ bs, ∃ t, c.builtinHookOption hk2 = .ok t) := by
  rcases init_cases file registry with ⟨e, hv, hi⟩ | ⟨hv, hi⟩
  · rw [hi] at h
    cases h
  · rw [hi] at h
    injection h with h
    subst h
    obtain ⟨cs, bs, hcs, hbs, _, _, hshell, _, hstageO⟩ :=
      validate_ok_parts ⟨file⟩ registry hv
    constructor
    · intro kv hkv
      have hkeys := stageUnknownOptions_ok_keys ⟨file⟩ registry kvs hk hstageO
      by_contra hc
      have hcf : registry.contains kv.1 = false := by
        cases hcon : registry.contains kv.1
        · rfl
        · exact absurd hcon hc
      have hmem : kv.1 ∈ (kvs.map Prod.fst).filter fun h2 => !registry.contains h2 :=
        List.mem_filter.mpr ⟨List.mem_map_of_mem _ hkv, by simpa using hcf⟩
      rw [hkeys] at hmem
      cases hmem
    · intro bs2 hbs2 hk2 hmem
      have hbseq : bs2 = bs := by
        rw [hbs] at hbs2
        injection hbs2 with hh
        exact hh.symm
      rw [hbseq] at hmem
      exact checkShellOptions_ok_forall _ _ hshell hk2 hmem

/-- C2 witness: a file whose options section names the enabled registered
hook `foo` is accepted; `foo` is registered and its options tokenize. -/
theorem options_keys_registered_witness :
    PreSubmitConfig.init (some sampleFile) ["foo", "bar", "baz"] = .ok ⟨sampleFile⟩ ∧
    sampleFile.sections.lookup builtinHooksOptionsSection = some [("foo", "--opt x")] ∧
    (["foo", "bar", "baz"] : List String).contains "foo" = true ∧
    ∃ t, PreSubmitConfig.builtinHookOption ⟨sampleFile⟩ "foo" = .ok t := by
  have happ := options_keys_registered_and_enabled_tokenize sampleFile
      ["foo", "bar", "baz"] ⟨sampleFile⟩ (by rfl) [("foo", "--opt x")] (by rfl)
  exact ⟨by rfl, by rfl, happ.1 ("foo", "--opt x") (by simp),
    happ.2 ["foo", "baz"] (by rfl) "foo" (by simp)⟩

/-- C5: for a validly constructed config, `callable_hooks` yields one custom
closure per custom hook followed by one builtin closure per enabled builtin
hook — all custom closures before all builtin closures, each group in the
declaration order of the underlying store (a pure function of the config, so
repeated calls yield the same sequence). -/
theorem callable_hooks_order (c : PreSubmitConfig) (registry : List String)
    (hv : c.validate registry = .ok ()) :
    ∃ cs bs l, c.customHooks = .ok cs ∧ c.builtinHooks = .ok bs ∧
      c.callableHooks = .ok l ∧
      l.length = cs.length + bs.length ∧
      (∀ i : Nat, i < cs.length → ∃ opts,
        c.customHook (cs.getD i "") = .ok opts ∧
        l.getD i (.custom []) = .custom opts) ∧
      (∀ j : Nat, j < bs.length → ∃ opts,
        c.builtinHookOption (bs.getD j "") = .ok opts ∧
        l.getD (cs.length + j) (.custom []) = .builtin (bs.getD j "") opts) := by
  obtain ⟨cs, bs, hcs, hbs, _, hshellC, hshellO, _, _⟩ := validate_ok_parts c registry hv
  have hallC := checkShellCustom_ok_forall c cs hshellC
  have hallB := checkShellOptions_ok_forall c bs hshellO
  obtain ⟨resC, hresC, hlenC, hidxC⟩ := mapM_bind_pure_ok (fun h => c.customHook h)
      (fun _ opts => HookClosure.custom opts) cs hallC
  obtain ⟨resB, hresB, hlenB, hidxB⟩ := mapM_bind_pure_ok (fun h => c.builtinHookOption h)
      (fun h opts => HookClosure.builtin h opts) bs hallB
  refine ⟨cs, bs, resC ++ resB, hcs, hbs, ?_, by simp [hlenC, hlenB], ?_, ?_⟩
  · unfold PreSubmitConfig.callableHooks
    simp only [Bind.bind, Except.bind] at hresC hresB ⊢
    simp only [hcs, hresC, hbs, hresB]
  · intro i hi
    obtain ⟨b, hFb, hres⟩ := hidxC i "" (.custom []) hi
    refine ⟨b, hFb, ?_⟩
    rw [List.getD_append _ _ _ _ (by omega : i < resC.length)]
    exact hres
  · intro j hj
    obtain ⟨b, hFb, hres⟩ := hidxB j "" (.custom []) hj
    refine ⟨b, hFb, ?_⟩
    have h1 : resC.length ≤ cs.length + j := by omega
    rw [List.getD_append_right _ _ _ _ h1]
    have h2 : cs.length + j - resC.length = j := by omega
    rw [h2]
    exact hres

/-- C5 witness: the ordered closure sequence of the sample config. -/
theorem callable_hooks_order_witness :
    PreSubmitConfig.validate ⟨sampleFile⟩ ["foo", "bar", "baz"] = .ok () ∧
    ∃ cs bs l, PreSubmitConfig.customHooks ⟨sampleFile⟩ = .ok cs ∧
      PreSubmitConfig.builtinHooks ⟨sampleFile⟩ = .ok bs ∧
      PreSubmitConfig.callableHooks ⟨sampleFile⟩ = .ok l ∧
      l.length = cs.length + bs.length ∧
      (∀ i : Nat, i < cs.length → ∃ opts,
        PreSubmitConfig.customHook ⟨sampleFile⟩ (cs.getD i "") = .ok opts ∧
        l.getD i (.custom []) = .custom opts) ∧
      (∀ j : Nat, j < bs.length → ∃ opts,
        PreSubmitConfig.builtinHookOption ⟨sampleFile⟩ (bs.getD j "") = .ok opts ∧
        l.getD (cs.length + j) (.custom []) = .builtin (bs.getD j "") opts) :=
  ⟨by rfl, callable_hooks_order ⟨sampleFile⟩ ["foo", "bar", "baz"] (by rfl)⟩

end Claims

end Repohooks
